import Mathlib

/-!
Verification of `prepare_proofread_chunks.py` (Arabic PDF proofreading chunker).

The Python program extracts text from each PDF page (direct extraction with an
OCR fallback), packs the resulting page records into bounded chunks, writes one
markdown file per chunk and one audit log per run.  This file gives a shallow
embedding of those functions and proves properties about them.

Embedding conventions:
* Python strings are modelled as Lean `String` and manipulated through their
  character list `String.data`; `str.strip()` is `pyStrip`, and
  `len(str.split())` is `wordCountAux` started outside a word.
* Python exceptions are modelled with `Except String`; external collaborators
  (pypdf text extraction, pdf2image rasterization, pytesseract recognition)
  are passed in as explicit outcome values.
* Because the side-effecting OCR collaborator can be invoked more than once in
  a single `extract_text_from_page` call, its outcomes are indexed by the
  attempt number, and the embedding also returns how many attempts were made.
-/

/-- The `source_type` field of `PageContent`: the string tag `"TEXT"`, `"OCR"`
or `"ERROR"` that records how a page's text was obtained. -/
inductive SourceType
  | TEXT
  | OCR
  | ERROR
deriving DecidableEq

/-- Embedding of the `PageContent` class: the extracted content of one page. -/
structure PageContent where
  page_num : Nat
  text : String
  source_type : SourceType
deriving DecidableEq

/-- Word counter for `len(text.split())`: counts maximal runs of
non-whitespace characters.  The boolean records whether the scan is currently
inside a word. -/
def wordCountAux : List Char → Bool → Nat
  | [], _ => 0
  | c :: cs, inWord =>
    if c.isWhitespace then wordCountAux cs false
    else (if inWord then 0 else 1) + wordCountAux cs true

/-- Embedding of `PageContent.word_count`: `len(self.text.split())`. -/
def PageContent.word_count (p : PageContent) : Nat :=
  wordCountAux p.text.data false

/-- Total word count of a chunk (sum over its pages). -/
def chunkWords (chunk : List PageContent) : Nat :=
  (chunk.map PageContent.word_count).sum

/-- Embedding of the loop of `PDFChunker.create_chunks`: `current_chunk` is the
open chunk and `current_word_count` its running word total.  The limits are
integers, as in the Python CLI. -/
def create_chunksGo (max_words max_pages : Int) :
    List PageContent → List PageContent → Nat → List (List PageContent)
  | [], current_chunk, _ =>
    if current_chunk = [] then [] else [current_chunk]
  | page :: rest, current_chunk, current_word_count =>
    if current_chunk ≠ [] ∧
        (((current_word_count + page.word_count : Nat) : Int) > max_words ∨
          (current_chunk.length : Int) ≥ max_pages) then
      current_chunk ::
        create_chunksGo max_words max_pages rest [page] page.word_count
    else
      create_chunksGo max_words max_pages rest (current_chunk ++ [page])
        (current_word_count + page.word_count)

/-- Embedding of `PDFChunker.create_chunks`: greedy single-pass packing of the
page records into chunks bounded by `max_words` and `max_pages`. -/
def create_chunks (max_words max_pages : Int)
    (pages_content : List PageContent) : List (List PageContent) :=
  create_chunksGo max_words max_pages pages_content [] 0

theorem create_chunksGo_flatten (max_words max_pages : Int)
    (pages cur : List PageContent) (cwc : Nat) :
    (create_chunksGo max_words max_pages pages cur cwc).flatten = cur ++ pages := by
  induction pages generalizing cur cwc with
  | nil =>
    by_cases h : cur = [] <;> simp [create_chunksGo, h]
  | cons page rest ih =>
    simp only [create_chunksGo]
    split
    · simp [ih]
    · simp [ih]

/-- Claim C1: for every page list and positive limits, concatenating the chunks
returned by `create_chunks` in order yields exactly the original page list —
no page is lost, duplicated, or reordered, and every chunk is a contiguous run
of the input. -/
theorem create_chunks_partition (max_words max_pages : Int)
    (pages : List PageContent) (hw : 0 < max_words) (hp : 0 < max_pages) :
    (create_chunks max_words max_pages pages).flatten = pages := by
  simpa using create_chunksGo_flatten max_words max_pages pages [] 0

theorem create_chunks_partition_witness :
    (0 : Int) < 3500 ∧ (0 : Int) < 10 ∧
      (create_chunks 3500 10
          [⟨1, "foo", SourceType.TEXT⟩, ⟨2, "bar baz", SourceType.OCR⟩]).flatten =
        [⟨1, "foo", SourceType.TEXT⟩, ⟨2, "bar baz", SourceType.OCR⟩] :=
  ⟨by decide, by decide,
    create_chunks_partition 3500 10 _ (by decide) (by decide)⟩

theorem create_chunksGo_ne_nil (max_words max_pages : Int)
    (pages cur : List PageContent) (cwc : Nat) :
    ∀ c ∈ create_chunksGo max_words max_pages pages cur cwc, c ≠ [] := by
  induction pages generalizing cur cwc with
  | nil =>
    intro c hc
    by_cases h : cur = []
    · simp [create_chunksGo, h] at hc
    · simp [create_chunksGo, h] at hc
      simp [hc, h]
  | cons page rest ih =>
    intro c hc
    simp only [create_chunksGo] at hc
    split at hc
    case isTrue hcond =>
      rcases List.mem_cons.mp hc with h | h
      · simpa [h] using hcond.1
      · exact ih [page] page.word_count c h
    case isFalse hcond =>
      exact ih (cur ++ [page]) _ c hc

theorem create_chunksGo_words_le (max_words max_pages : Int)
    (pages cur : List PageContent) (cwc : Nat)
    (hcwc : cwc = chunkWords cur)
    (hcur : 2 ≤ cur.length → (chunkWords cur : Int) ≤ max_words) :
    ∀ c ∈ create_chunksGo max_words max_pages pages cur cwc,
      2 ≤ c.length → (chunkWords c : Int) ≤ max_words := by
  induction pages generalizing cur cwc with
  | nil =>
    intro c hc
    by_cases h : cur = []
    · simp [create_chunksGo, h] at hc
    · simp [create_chunksGo, h] at hc
      subst hc
      exact hcur
  | cons page rest ih =>
    intro c hc
    simp only [create_chunksGo] at hc
    split at hc
    case isTrue hcond =>
      rcases List.mem_cons.mp hc with h | h
      · subst h
        exact hcur
      · refine ih [page] page.word_count ?_ ?_ c h
        · simp [chunkWords]
        · intro h2
          simp at h2
    case isFalse hcond =>
      refine ih (cur ++ [page]) (cwc + page.word_count) ?_ ?_ c hc
      · simp [chunkWords, hcwc]
      · intro h2
        have hne : cur ≠ [] := by
          intro h0
          rw [h0] at h2
          simp at h2
        have hle : ((cwc + page.word_count : Nat) : Int) ≤ max_words := by
          by_contra hgt
          exact hcond ⟨hne, Or.inl (by omega)⟩
        have : chunkWords (cur ++ [page]) = cwc + page.word_count := by
          simp [chunkWords, hcwc]
        rw [this]
        exact hle

/-- Claim C2: for positive limits, every chunk produced by `create_chunks`
whose total word count exceeds `max_words` contains exactly one page
(equivalently, every chunk with two or more pages stays within `max_words`). -/
theorem create_chunks_word_limit (max_words max_pages : Int)
    (pages : List PageContent) (hw : 0 < max_words) (hp : 0 < max_pages) :
    ∀ c ∈ create_chunks max_words max_pages pages,
      max_words < (chunkWords c : Int) → c.length = 1 := by
  intro c hc hgt
  have hle := create_chunksGo_words_le max_words max_pages pages [] 0
    (by simp [chunkWords]) (by simp) c hc
  have hne := create_chunksGo_ne_nil max_words max_pages pages [] 0 c hc
  have hpos : 0 < c.length := List.length_pos.mpr hne
  have hlt2 : c.length < 2 := by
    by_contra h2
    exact absurd (hle (by omega)) (by omega)
  omega

theorem create_chunks_word_limit_witness :
    (0 : Int) < 1 ∧ (0 : Int) < 10 ∧
      ∀ c ∈ create_chunks 1 10 [⟨1, "two words", SourceType.TEXT⟩],
        (1 : Int) < (chunkWords c : Int) → c.length = 1 :=
  ⟨by decide, by decide,
    create_chunks_word_limit 1 10 _ (by decide) (by decide)⟩

theorem create_chunksGo_pages_le (max_words max_pages : Int)
    (hp : 0 < max_pages) (pages cur : List PageContent) (cwc : Nat)
    (hcur : (cur.length : Int) ≤ max_pages) :
    ∀ c ∈ create_chunksGo max_words max_pages pages cur cwc,
      (c.length : Int) ≤ max_pages := by
  induction pages generalizing cur cwc with
  | nil =>
    intro c hc
    by_cases h : cur = []
    · simp [create_chunksGo, h] at hc
    · simp [create_chunksGo, h] at hc
      subst hc
      exact hcur
  | cons page rest ih =>
    intro c hc
    simp only [create_chunksGo] at hc
    split at hc
    case isTrue hcond =>
      rcases List.mem_cons.mp hc with h | h
      · subst h
        exact hcur
      · refine ih [page] page.word_count ?_ c h
        simpa using hp
    case isFalse hcond =>
      refine ih (cur ++ [page]) (cwc + page.word_count) ?_ c hc
      by_cases h0 : cur = []
      · simp [h0]
        omega
      · have hlt : ¬ ((cur.length : Int) ≥ max_pages) := fun hge =>
          hcond ⟨h0, Or.inr hge⟩
        simp only [List.length_append, List.length_cons, List.length_nil]
        push_cast
        omega

/-- Claim C3: for positive limits, no chunk produced by `create_chunks`
contains more than `max_pages` pages. -/
theorem create_chunks_page_limit (max_words max_pages : Int)
    (pages : List PageContent) (hw : 0 < max_words) (hp : 0 < max_pages) :
    ∀ c ∈ create_chunks max_words max_pages pages,
      (c.length : Int) ≤ max_pages := by
  intro c hc
  exact create_chunksGo_pages_le max_words max_pages hp pages [] 0
    (by simpa using hp.le) c hc

theorem create_chunks_page_limit_witness :
    (0 : Int) < 100 ∧ (0 : Int) < 1 ∧
      ∀ c ∈ create_chunks 100 1
          [⟨1, "a", SourceType.TEXT⟩, ⟨2, "b", SourceType.OCR⟩],
        (c.length : Int) ≤ 1 :=
  ⟨by decide, by decide,
    create_chunks_page_limit 100 1 _ (by decide) (by decide)⟩

/-- Character-list version of Python `str.strip()`: drop whitespace from the
front, then from the back (via reversal). -/
def stripChars (l : List Char) : List Char :=
  ((l.dropWhile Char.isWhitespace).reverse.dropWhile Char.isWhitespace).reverse

/-- Embedding of Python `str.strip()` on `String`. -/
def pyStrip (s : String) : String :=
  String.mk (stripChars s.data)

theorem dropWhile_eq_self_of_head {α : Type} (p : α → Bool) (l : List α)
    (h : ∀ c, l.head? = some c → p c = false) : l.dropWhile p = l := by
  cases l with
  | nil => rfl
  | cons a l => simp [List.dropWhile_cons, h a rfl]

theorem head?_dropWhile_false {α : Type} (p : α → Bool) (l : List α) :
    ∀ c, (l.dropWhile p).head? = some c → p c = false := by
  intro c hc
  have hne : l.dropWhile p ≠ [] := by
    intro h
    rw [h] at hc
    simp at hc
  have hhead := List.head_dropWhile_not p l hne
  rw [List.head?_eq_head hne] at hc
  cases hc
  exact hhead

theorem getLast?_dropWhile {α : Type} (p : α → Bool) (l : List α)
    (hne : l.dropWhile p ≠ []) : (l.dropWhile p).getLast? = l.getLast? := by
  induction l with
  | nil => simp at hne
  | cons a l ih =>
    rw [List.dropWhile_cons]
    rw [List.dropWhile_cons] at hne
    by_cases hpa : p a = true
    · simp only [hpa, if_true] at hne ⊢
      rw [ih hne]
      have hl : l ≠ [] := by
        intro h0
        exact hne (by simp [h0])
      cases l with
      | nil => exact absurd rfl hl
      | cons b m => simp [List.getLast?_cons]
    · simp [hpa]

theorem stripChars_head_false (l : List Char) :
    ∀ c, (stripChars l).head? = some c → c.isWhitespace = false := by
  intro c hc
  unfold stripChars at hc
  rw [List.head?_reverse] at hc
  have hne : (l.dropWhile Char.isWhitespace).reverse.dropWhile Char.isWhitespace ≠ [] := by
    intro h
    rw [h] at hc
    simp at hc
  rw [getLast?_dropWhile _ _ hne, List.getLast?_reverse] at hc
  exact head?_dropWhile_false _ _ c hc

theorem stripChars_getLast_false (l : List Char) :
    ∀ c, (stripChars l).getLast? = some c → c.isWhitespace = false := by
  intro c hc
  unfold stripChars at hc
  rw [List.getLast?_reverse] at hc
  exact head?_dropWhile_false _ _ c hc

theorem stripChars_idem (l : List Char) :
    stripChars (stripChars l) = stripChars l := by
  conv_lhs => rw [stripChars]
  rw [dropWhile_eq_self_of_head _ _ (stripChars_head_false l)]
  rw [dropWhile_eq_self_of_head _ _
    (fun c hc => stripChars_getLast_false l c (by rwa [List.head?_reverse] at hc))]
  exact List.reverse_reverse _

theorem pyStrip_idem (s : String) : pyStrip (pyStrip s) = pyStrip s := by
  unfold pyStrip
  rw [show (String.mk (stripChars s.data)).data = stripChars s.data from rfl]
  rw [stripChars_idem]

/-- Embedding of `PDFChunker._ocr_page`.  `convert_result` is the outcome of
`convert_from_path` (a list of images, abstracted over the image type `α`, or
an exception), `image_to_string` the outcome of `pytesseract.image_to_string`
on a given image.  An exception from either collaborator is wrapped into an
`OCR failed:` exception, as in the Python `except` clause. -/
def ocr_page {α : Type} (convert_result : Except String (List α))
    (image_to_string : α → Except String String) : Except String String :=
  match convert_result with
  | Except.error e => Except.error ("OCR failed: " ++ e)
  | Except.ok images =>
    match images with
    | [] => Except.ok ""
    | image :: _ =>
      match image_to_string image with
      | Except.error e => Except.error ("OCR failed: " ++ e)
      | Except.ok ocr_text => Except.ok (pyStrip ocr_text)

/-- Embedding of `PDFChunker.extract_text_from_page` for 0-indexed `page_num`.
`extract_result` is the outcome of `pdf_reader.pages[page_num].extract_text()`
(`none` models Python `None`, mapped to `""` by the `or ""`); `ocr_attempt k`
is the outcome of the `k`-th call to `self._ocr_page(page_num)` within this
invocation.  Returns the produced `PageContent` together with the number of
`_ocr_page` calls performed.  Note the control flow of the source: the first
`_ocr_page` call sits inside the outer `try`, so when it raises, the outer
`except` handler performs a second `_ocr_page` call. -/
def extract_text_from_page (page_num : Nat)
    (extract_result : Except String (Option String))
    (ocr_attempt : Nat → Except String String) : PageContent × Nat :=
  let display_page_num := page_num + 1
  match extract_result with
  | Except.ok extracted =>
    let extracted_text := extracted.getD ""
    if 40 ≤ (pyStrip extracted_text).length then
      (⟨display_page_num, pyStrip extracted_text, SourceType.TEXT⟩, 0)
    else
      match ocr_attempt 0 with
      | Except.ok ocr_text => (⟨display_page_num, ocr_text, SourceType.OCR⟩, 1)
      | Except.error _ =>
        match ocr_attempt 1 with
        | Except.ok ocr_text => (⟨display_page_num, ocr_text, SourceType.OCR⟩, 2)
        | Except.error _ => (⟨display_page_num, "", SourceType.ERROR⟩, 2)
  | Except.error _ =>
    match ocr_attempt 0 with
    | Except.ok ocr_text => (⟨display_page_num, ocr_text, SourceType.OCR⟩, 1)
    | Except.error _ => (⟨display_page_num, "", SourceType.ERROR⟩, 1)

/-- The extractor composed with the real `_ocr_page` body: every OCR attempt
goes through `ocr_page` with that attempt's rasterization outcome and the
recognizer. -/
def extract_page_full {α : Type} (page_num : Nat)
    (extract_result : Except String (Option String))
    (convert_result : Nat → Except String (List α))
    (image_to_string : α → Except String String) : PageContent × Nat :=
  extract_text_from_page page_num extract_result
    (fun attempt => ocr_page (convert_result attempt) image_to_string)

theorem text_source_length (page_num : Nat)
    (extract_result : Except String (Option String))
    (ocr_attempt : Nat → Except String String)
    (hsrc : (extract_text_from_page page_num extract_result ocr_attempt).1.source_type =
      SourceType.TEXT) :
    40 ≤ (extract_text_from_page page_num extract_result ocr_attempt).1.text.length := by
  unfold extract_text_from_page at hsrc ⊢
  cases extract_result with
  | error e =>
    cases h0 : ocr_attempt 0 <;> simp [h0] at hsrc
  | ok extracted =>
    by_cases hlen : 40 ≤ (pyStrip (extracted.getD "")).length
    · simp [hlen]
    · cases h0 : ocr_attempt 0 with
      | ok t => simp [hlen, h0] at hsrc
      | error e =>
        cases h1 : ocr_attempt 1 <;> simp [hlen, h0, h1] at hsrc

/-- Claim C4 counterexample: a page whose direct extraction yields the short
text `"hi"` and whose OCR recognizes only whitespace produces a record with
empty text and source `OCR`, not `ERROR`. -/
theorem empty_text_with_source_OCR :
    (extract_page_full 0 (Except.ok (some "hi"))
        (fun _ => Except.ok ([()] : List Unit))
        (fun _ => Except.ok "  ")).1.text = "" ∧
      (extract_page_full 0 (Except.ok (some "hi"))
          (fun _ => Except.ok ([()] : List Unit))
          (fun _ => Except.ok "  ")).1.source_type = SourceType.OCR := by
  constructor <;> rfl

/-- Claim C4 amended: a page record with empty text never has source `TEXT`
(it may have source `OCR` — blank recognition result or empty rasterization —
or `ERROR`). -/
theorem empty_text_source_not_TEXT (page_num : Nat)
    (extract_result : Except String (Option String))
    (ocr_attempt : Nat → Except String String)
    (h : (extract_text_from_page page_num extract_result ocr_attempt).1.text = "") :
    (extract_text_from_page page_num extract_result ocr_attempt).1.source_type ≠
      SourceType.TEXT := by
  intro hsrc
  have hlen := text_source_length page_num extract_result ocr_attempt hsrc
  rw [h] at hlen
  simp [String.length] at hlen

theorem empty_text_source_not_TEXT_witness :
    (extract_text_from_page 0 (Except.error "broken page")
        (fun _ => Except.error "ocr down")).1.text = "" ∧
      (extract_text_from_page 0 (Except.error "broken page")
          (fun _ => Except.error "ocr down")).1.source_type ≠ SourceType.TEXT :=
  ⟨rfl, empty_text_source_not_TEXT 0 _ _ rfl⟩

/-- Claim C5: when direct extraction succeeds and the stripped text has length
at least 40, the extractor returns a `TEXT` record whose text is exactly the
extracted text with leading/trailing whitespace removed. -/
theorem text_extraction_verbatim (page_num : Nat) (extracted : Option String)
    (ocr_attempt : Nat → Except String String)
    (h : 40 ≤ (pyStrip (extracted.getD "")).length) :
    (extract_text_from_page page_num (Except.ok extracted) ocr_attempt).1 =
      ⟨page_num + 1, pyStrip (extracted.getD ""), SourceType.TEXT⟩ := by
  simp [extract_text_from_page, h]

theorem text_extraction_verbatim_witness :
    40 ≤ (pyStrip ((some "aaaaaaaaaaaaaaaaaaaaaaaaaaaaaaaaaaaaaaaa").getD "")).length ∧
      (extract_text_from_page 0
          (Except.ok (some "aaaaaaaaaaaaaaaaaaaaaaaaaaaaaaaaaaaaaaaa"))
          (fun _ => Except.error "ocr down")).1 =
        ⟨1, pyStrip ((some "aaaaaaaaaaaaaaaaaaaaaaaaaaaaaaaaaaaaaaaa").getD ""),
          SourceType.TEXT⟩ :=
  ⟨by decide,
    text_extraction_verbatim 0 (some "aaaaaaaaaaaaaaaaaaaaaaaaaaaaaaaaaaaaaaaa")
      _ (by decide)⟩

/-- Claim C6: when extraction raises or yields stripped text shorter than 40,
the extractor takes the OCR fallback; with a fixed fallback outcome it returns
an `OCR` record with the recognized text on success and an `ERROR` record with
empty text on failure — a record is produced in every case. -/
theorem fallback_outcome (page_num : Nat)
    (extract_result : Except String (Option String))
    (ocr_result : Except String String)
    (hshort : ∀ s, extract_result = Except.ok s → (pyStrip (s.getD "")).length < 40) :
    (extract_text_from_page page_num extract_result (fun _ => ocr_result)).1 =
      match ocr_result with
      | Except.ok ocr_text => ⟨page_num + 1, ocr_text, SourceType.OCR⟩
      | Except.error _ => ⟨page_num + 1, "", SourceType.ERROR⟩ := by
  cases extract_result with
  | error e => cases ocr_result <;> simp [extract_text_from_page]
  | ok extracted =>
    have hlt := hshort extracted rfl
    have hnot : ¬ 40 ≤ (pyStrip (extracted.getD "")).length := by omega
    cases ocr_result <;> simp [extract_text_from_page, hnot]

theorem fallback_outcome_witness :
    (extract_text_from_page 4 (Except.ok (some "too short"))
        (fun _ => Except.ok "recognized text")).1 =
      ⟨5, "recognized text", SourceType.OCR⟩ :=
  fallback_outcome 4 (Except.ok (some "too short")) (Except.ok "recognized text")
    (by intro s hs; injection hs with h; subst h; decide)

/-- Claim C7 counterexample: when extraction yields short text (`"hi"`) and
OCR raises, `_ocr_page` is invoked twice within one `extract_text_from_page`
call (the first call raises inside the outer `try`, and the `except` handler
calls it again); the second invocation's result is observable. -/
theorem ocr_attempted_twice :
    (extract_text_from_page 0 (Except.ok (some "hi"))
        (fun _ => Except.error "ocr down")).2 = 2 ∧
      (extract_text_from_page 0 (Except.ok (some "hi"))
          (fun attempt =>
            if attempt = 0 then Except.error "ocr down"
            else Except.ok "second attempt")).1 =
        ⟨1, "second attempt", SourceType.OCR⟩ := by
  constructor <;> rfl

/-- Claim C7 amended: the extractor invokes the OCR fallback at most twice per
page, and it is invoked twice exactly when direct extraction returned (without
raising) text whose stripped length is below 40 and the first OCR attempt
raised. -/
theorem ocr_attempts_at_most_two (page_num : Nat)
    (extract_result : Except String (Option String))
    (ocr_attempt : Nat → Except String String) :
    (extract_text_from_page page_num extract_result ocr_attempt).2 ≤ 2 ∧
      ((extract_text_from_page page_num extract_result ocr_attempt).2 = 2 ↔
        ∃ s, extract_result = Except.ok s ∧
          (pyStrip (s.getD "")).length < 40 ∧
          ∃ e, ocr_attempt 0 = Except.error e) := by
  cases extract_result with
  | error e =>
    cases h0 : ocr_attempt 0 <;> simp [extract_text_from_page, h0]
  | ok extracted =>
    by_cases hlen : 40 ≤ (pyStrip (extracted.getD "")).length
    · simp [extract_text_from_page, hlen]
    · cases h0 : ocr_attempt 0 with
      | error e0 =>
        cases h1 : ocr_attempt 1 <;>
          simp [extract_text_from_page, hlen, h0, h1] <;> omega
      | ok t =>
        simp [extract_text_from_page, hlen, h0]

theorem ocr_page_trimmed {α : Type} (convert_result : Except String (List α))
    (image_to_string : α → Except String String) (t : String)
    (h : ocr_page convert_result image_to_string = Except.ok t) :
    pyStrip t = t := by
  unfold ocr_page at h
  cases convert_result with
  | error e => simp at h
  | ok images =>
    cases images with
    | nil =>
      simp only [Except.ok.injEq] at h
      subst h
      rfl
    | cons image rest =>
      cases himg : image_to_string image with
      | error e => simp [himg] at h
      | ok raw =>
        simp only [himg, Except.ok.injEq] at h
        subst h
        exact pyStrip_idem raw

/-- Claim C10: every page record produced by the extractor (composed with the
real `_ocr_page` body) has whitespace-trimmed text — in the `TEXT`, `OCR` and
`ERROR` outcomes alike, the record's text equals itself stripped. -/
theorem extract_text_trimmed {α : Type} (page_num : Nat)
    (extract_result : Except String (Option String))
    (convert_result : Nat → Except String (List α))
    (image_to_string : α → Except String String) :
    pyStrip
        (extract_page_full page_num extract_result convert_result
          image_to_string).1.text =
      (extract_page_full page_num extract_result convert_result
        image_to_string).1.text := by
  unfold extract_page_full extract_text_from_page
  cases extract_result with
  | error e =>
    cases h0 : ocr_page (convert_result 0) image_to_string with
    | ok t => simpa [h0] using ocr_page_trimmed _ _ t h0
    | error e0 => simp [h0]; rfl
  | ok extracted =>
    by_cases hlen : 40 ≤ (pyStrip (extracted.getD "")).length
    · simpa [hlen] using pyStrip_idem (extracted.getD "")
    · cases h0 : ocr_page (convert_result 0) image_to_string with
      | ok t => simpa [hlen, h0] using ocr_page_trimmed _ _ t h0
      | error e0 =>
        cases h1 : ocr_page (convert_result 1) image_to_string with
        | ok t => simpa [hlen, h0, h1] using ocr_page_trimmed _ _ t h1
        | error e1 => simp [hlen, h0, h1]; rfl

/-- Python format spec `{n:03d}` for a natural number: decimal digits
left-padded with zeros to a minimum width of 3. -/
def pad3 (n : Nat) : String :=
  let s := toString n
  if s.length < 3 then String.mk (List.replicate (3 - s.length) '0') ++ s else s

/-- The filename computed by `PDFChunker.write_chunk_file` from the 0-based
`chunk_index` and the start/end page numbers:
`f"chunk_{chunk_index + 1:03d}_p{start_page:03d}-p{end_page:03d}.md"`. -/
def chunk_filename (chunk_index start_page end_page : Nat) : String :=
  "chunk_" ++ pad3 (chunk_index + 1) ++ "_p" ++ pad3 start_page ++ "-p" ++
    pad3 end_page ++ ".md"

/-- The filename `write_chunk_file` writes a chunk to: `start_page` is
`chunk_pages[0].page_num` and `end_page` is `chunk_pages[-1].page_num`
(`none` when the chunk is empty, where the Python indexing would raise). -/
def write_chunk_file_name (chunk_index : Nat)
    (chunk_pages : List PageContent) : Option String :=
  match chunk_pages with
  | [] => none
  | first :: rest =>
    some (chunk_filename chunk_index first.page_num (rest.getLastD first).page_num)

/-- Claim C8: the chunk filename depends only on the chunk ordinal and the
start/end page numbers: every chunk with 1-based ordinal 1 (0-based index 0)
whose first page is 3 and last page is 7 is written to exactly
`chunk_001_p003-p007.md`, independent of any other input. -/
theorem chunk_filename_deterministic (chunk_pages : List PageContent)
    (h1 : chunk_pages.head?.map PageContent.page_num = some 3)
    (h2 : chunk_pages.getLast?.map PageContent.page_num = some 7) :
    write_chunk_file_name 0 chunk_pages = some "chunk_001_p003-p007.md" := by
  cases chunk_pages with
  | nil => simp at h1
  | cons first rest =>
    have hfirst : first.page_num = 3 := by simpa using h1
    have hlast : (rest.getLastD first).page_num = 7 := by
      rw [List.getLastD_eq_getLast?]
      rw [List.getLast?_cons] at h2
      simpa using h2
    show some (chunk_filename 0 first.page_num (rest.getLastD first).page_num) =
      some "chunk_001_p003-p007.md"
    rw [hfirst, hlast]
    rfl

theorem chunk_filename_deterministic_witness :
    ([⟨3, "start", SourceType.TEXT⟩, ⟨5, "middle", SourceType.OCR⟩,
        ⟨7, "finish", SourceType.ERROR⟩] :
          List PageContent).head?.map PageContent.page_num = some 3 ∧
      write_chunk_file_name 0
          [⟨3, "start", SourceType.TEXT⟩, ⟨5, "middle", SourceType.OCR⟩,
            ⟨7, "finish", SourceType.ERROR⟩] =
        some "chunk_001_p003-p007.md" :=
  ⟨rfl, chunk_filename_deterministic _ rfl rfl⟩

/-- The string tag stored in `PageContent.source_type`, as printed in the
log file. -/
def sourceTypeStr : SourceType → String
  | SourceType.TEXT => "TEXT"
  | SourceType.OCR => "OCR"
  | SourceType.ERROR => "ERROR"

/-- Python format spec `{n:6d}` for a natural number: decimal digits
right-aligned in a minimum width of 6 (space padding). -/
def padLeft6 (n : Nat) : String :=
  let s := toString n
  if s.length < 6 then String.mk (List.replicate (6 - s.length) ' ') ++ s else s

/-- One data row of the log written by `PDFChunker.write_log`:
`f"{page.page_num:6d}      | {page.source_type}"`. -/
def log_row (page : PageContent) : String :=
  padLeft6 page.page_num ++ "      | " ++ sourceTypeStr page.source_type

/-- Embedding of `PDFChunker.write_log`: the lines of `logs/page_sources.txt`
in order — a two-line header followed by one row per page record. -/
def write_log_lines (pages_content : List PageContent) : List String :=
  "Page Number | Source Type" :: String.mk (List.replicate 30 '-') ::
    pages_content.map log_row

/-- Claim C9: for every page-record list, the audit log contains, after its
two-line header, exactly one row per page record, in input order, each row
built from that page's number and source classification. -/
theorem write_log_rows (pages_content : List PageContent) :
    (write_log_lines pages_content).length = pages_content.length + 2 ∧
      (write_log_lines pages_content).drop 2 = pages_content.map log_row := by
  constructor
  · simp [write_log_lines]
  · rfl
